import Mathlib

/-!
Verification of the VoiceVox voice-generator batch pipeline
(`src/voice_generator.py`).

The Python source is shallowly embedded: Python strings become `List Char`,
Python's substring test `needle in hay` becomes `containsSub`, spreadsheet
cells become `Option` values (Python `None` / missing cells), exceptions
become `Except`, and the external collaborators (VoiceVox HTTP calls, file
writes, pydub) become explicit oracle functions or small models of their
documented behaviour.
-/

set_option maxRecDepth 8000

namespace VoiceGen

/-- Characters of a Python string. -/
abbrev Str := List Char

/-- View a Lean string literal as the character-list representation. -/
def str (s : String) : Str := s.data

/-- Substring search helper: does `needle` match at the head of `hay`? -/
def subAt : Str → Str → Bool
  | [], _ => true
  | _ :: _, [] => false
  | n :: ns, h :: hs => n == h && subAt ns hs

/-- Python's `needle in hay` on strings: literal substring containment
(first argument is the haystack). -/
def containsSub : Str → Str → Bool
  | [], needle => needle.isEmpty
  | h :: rest, needle => subAt needle (h :: rest) || containsSub rest needle

/-- Python `str.lower()`, modelled per character with the ASCII case map
(the Japanese characters appearing in the program are unaffected by
lowercasing). -/
def lowerStr (s : Str) : Str := s.map Char.toLower

/-- Whitespace stripped by Python `str.strip()` (ASCII whitespace plus the
ideographic space). -/
def isSpaceChar (c : Char) : Bool :=
  c == ' ' || c == '\t' || c == '\n' || c == '\r' || c == '\x0b' || c == '\x0c' || c == '　'

/-- Python `str.strip()`. -/
def strip (s : Str) : Str :=
  ((s.dropWhile isSpaceChar).reverse.dropWhile isSpaceChar).reverse

/-- The module-level `EMOTION_KEYWORDS` dict of the source, as the ordered
sequence of (emotion label, keyword list) pairs given by Python's dict
insertion order. -/
def EMOTION_KEYWORDS : List (Str × List Str) :=
  [ (str "あまあま",
      [str "好き", str "大好き", str "愛してる", str "嬉しい", str "幸せ", str "ありがとう",
       str "素敵", str "可愛い", str "優しい", str "♡", str "♥", str "にこ", str "わーい",
       str "やったー"]),
    (str "ツンツン",
      [str "べ、別に", str "バカ", str "ばか", str "アホ", str "あほ", str "うるさい",
       str "知らない", str "嫌い", str "ふん", str "はぁ？", str "なによ", str "ちがう",
       str "違う", str "勘違い"]),
    (str "セクシー",
      [str "ふふ", str "うふふ", str "ねぇ", str "ダメ", str "だめ", str "いけない",
       str "秘密", str "ひみつ", str "誘", str "触", str "キス", str "抱"]),
    (str "ささやき",
      [str "しー", str "内緒", str "ないしょ", str "こっそり", str "静かに", str "小声",
       str "ひそひそ"]),
    (str "ヒソヒソ",
      [str "しー", str "内緒", str "ないしょ", str "こっそり", str "静かに", str "小声",
       str "ひそひそ"]),
    (str "怒り",
      [str "怒", str "許さない", str "ゆるさない", str "ふざけるな", str "なんだと",
       str "くそ", str "クソ", str "ちくしょう", str "畜生", str "殺", str "死ね"]),
    (str "悲しみ",
      [str "悲しい", str "寂しい", str "さみしい", str "辛い", str "つらい", str "泣",
       str "涙", str "ごめん", str "すまない", str "申し訳"]),
    (str "喜び",
      [str "嬉しい", str "うれしい", str "楽しい", str "たのしい", str "わーい",
       str "やった", str "最高", str "すごい", str "素晴らしい"]) ]

namespace EmotionAnalyzer

/-- Stable insertion for a descending sort by score: the inserted element
came earlier in the original list, so on equal scores it goes first.  This
models Python's stable `sorted(..., key=lambda x: x[1], reverse=True)`. -/
def insertDesc (x : Str × Nat) : List (Str × Nat) → List (Str × Nat)
  | [] => [x]
  | y :: ys => if x.2 ≥ y.2 then x :: y :: ys else y :: insertDesc x ys

/-- Stable sort by score descending (model of the source's
`sorted(scores.items(), key=lambda x: x[1], reverse=True)`). -/
def sortDesc : List (Str × Nat) → List (Str × Nat)
  | [] => []
  | x :: xs => insertDesc x (sortDesc xs)

/-- The per-emotion scores of `EmotionAnalyzer.analyze`: for each table
entry, the number of its keywords occurring in `text`; zero-score emotions
are dropped, table order is kept (Python dict insertion order). -/
def emotionScores (text : Str) : List (Str × Nat) :=
  EMOTION_KEYWORDS.filterMap (fun ek =>
    let sc := (ek.2.filter (fun k => containsSub text k)).length
    if sc > 0 then some (ek.1, sc) else none)

/-- The double loop of `analyze` over ranked emotions and style names:
return the first style name for which
`emotion in style_name or emotion.lower() in style_name.lower()` holds. -/
def firstPick : List (Str × Nat) → List Str → Option Str
  | [], _ => none
  | (emotion, _) :: rest, names =>
    match names.find? (fun n =>
        containsSub n emotion || containsSub (lowerStr n) (lowerStr emotion)) with
    | some s => some s
    | none => firstPick rest names

/-- The default branch of `analyze`: the first style whose name contains
"ノーマル" or whose lowercased name contains "normal", else the first style,
else the literal "ノーマル".  (Katakana has no letter case, so this is also
exactly the spec's "first style containing ノーマル or normal,
case-insensitively".) -/
def normalFallback (names : List Str) : Str :=
  match names.find? (fun n =>
      containsSub n (str "ノーマル") || containsSub (lowerStr n) (str "normal")) with
  | some s => s
  | none =>
    match names with
    | n :: _ => n
    | [] => str "ノーマル"

/-- Embedding of `EmotionAnalyzer.analyze(text, available_styles)`:
score every emotion by keyword containment, rank by score descending with
Python's stable sort, return the first available style matching a ranked
emotion, else fall back to a normal style. -/
def analyze (text : Str) (available_styles : List (Str × Int)) : Str :=
  match firstPick (sortDesc (emotionScores text)) (available_styles.map Prod.fst) with
  | some s => s
  | none => normalFallback (available_styles.map Prod.fst)

end EmotionAnalyzer

/-- Remove duplicate keywords keeping first occurrences (used only to state
the spec's "count of distinct keywords"). -/
def dedupKW : List Str → List Str
  | [] => []
  | k :: ks => k :: (dedupKW ks).filter (fun y => !(y == k))

/-- Modelled from the spec's words (§4.2): score = count of distinct
keywords of the emotion occurring as literal substrings of the text;
emotions with score 0 are discarded. -/
def specScores (text : Str) : List (Str × Nat) :=
  EMOTION_KEYWORDS.filterMap (fun ek =>
    let sc := ((dedupKW ek.2).filter (fun k => containsSub text k)).length
    if sc > 0 then some (ek.1, sc) else none)

/-- Modelled from the spec's words: for the ranked emotions in order, the
first available style whose name contains the emotion label as a
case-insensitive substring. -/
def specPick : List (Str × Nat) → List Str → Option Str
  | [], _ => none
  | (emotion, _) :: rest, names =>
    match names.find? (fun n => containsSub (lowerStr n) (lowerStr emotion)) with
    | some s => some s
    | none => specPick rest names

/-- Modelled from the spec's words (§4.2): the classifier exactly as the
claim states the algorithm, to be compared with the source's `analyze`. -/
def classifySpec (text : Str) (availableStyles : List Str) : Str :=
  match specPick (EmotionAnalyzer.sortDesc (specScores text)) availableStyles with
  | some s => s
  | none => EmotionAnalyzer.normalFallback availableStyles

/-- Python truthiness of an optional spreadsheet cell: `None` and the empty
string are falsy, every other string (including whitespace-only ones) is
truthy. -/
def truthy : Option Str → Bool
  | none => false
  | some s => !s.isEmpty

namespace ExcelReader

/-- The loop body of `ExcelReader.get_rows_for_character` for one cached
row.  Cells are `Option Str` (`row.getD i none` is Python's
`row[i] if i < len(row) else None`; the cell itself may be `None`).
Mirrors the source exactly: skip the row when the character column is out
of range, require the character cell to be truthy and to strip-compare
equal to `character`, and require truthy dialogue and filename cells
before stripping them into the result. -/
def processRow (charIdx dialogueIdx filenameIdx : Nat) (character : Str)
    (row : List (Option Str)) : Option (Str × Str) :=
  if row.length ≤ charIdx then none
  else if truthy (row.getD charIdx none)
      && (strip ((row.getD charIdx none).getD []) == character) then
    if truthy (row.getD dialogueIdx none) && truthy (row.getD filenameIdx none) then
      some (strip ((row.getD dialogueIdx none).getD []),
            strip ((row.getD filenameIdx none).getD []))
    else none
  else none

/-- Embedding of `ExcelReader.get_rows_for_character`: iterate the cached sheet data
from `start_row - 1`, collecting `{dialogue, filename}` pairs for rows
whose character cell matches.  Column letters are pre-converted to 0-based
indices (the source's `_column_index`). -/
def get_rows_for_character (cachedData : List (List (Option Str)))
    (charIdx dialogueIdx filenameIdx : Nat) (character : Str)
    (startRow : Nat) : List (Str × Str) :=
  (cachedData.drop (startRow - 1)).filterMap
    (processRow charIdx dialogueIdx filenameIdx character)

end ExcelReader

/-- Embedding of `VoiceGeneratorApp.get_style_id`: look the speaker up in the
last-fetched catalog (`self.speaker_styles`), scan its styles for the
first one whose name equals `style_name`, and return its id; return 0 when
either lookup fails. -/
def get_style_id (catalog : List (Str × List (Str × Int)))
    (speakerName styleName : Str) : Int :=
  match catalog.find? (fun e => e.1 == speakerName) with
  | some entry =>
    match entry.2.find? (fun s => s.1 == styleName) with
    | some s => s.2
    | none => 0
  | none => 0

/-- Embedding of `self.speaker_styles.get(speaker_name, [])` from the task-collection
loop. -/
def lookupCatalog (catalog : List (Str × List (Str × Int)))
    (speakerName : Str) : List (Str × Int) :=
  match catalog.find? (fun e => e.1 == speakerName) with
  | some entry => entry.2
  | none => []

/-- Does `s` end with `suffixChars`?  (`subAt` on the reversed lists.) -/
def endsStr (s suffixChars : Str) : Bool := subAt suffixChars.reverse s.reverse

/-- The filename coercion inside `generate_all`:
`if not filename.lower().endswith(".wav"): filename += ".wav"`. -/
def coerceFilename (filename : Str) : Str :=
  if endsStr (lowerStr filename) (str ".wav") then filename
  else filename ++ str ".wav"

/-- A synthesis task as collected by `generate_voices` (the dict appended
to `tasks`). -/
structure SynthesisTask where
  character : Str
  speaker : Str
  style : Str
  styleId : Int
  dialogue : Str
  filename : Str
deriving DecidableEq

/-- The inner loop of the task-collection phase of `generate_voices`: one
task per matching row, with the style taken from `EmotionAnalyzer.analyze`
when automatic emotion detection is on and from the manual assignment
otherwise. -/
def tasksForChar (catalog : List (Str × List (Str × Int))) (autoEmotion : Bool)
    (char speaker baseStyle : Str) : List (Str × Str) → List SynthesisTask
  | [] => []
  | (dialogue, filename) :: rest =>
    let styleName :=
      if autoEmotion then EmotionAnalyzer.analyze dialogue (lookupCatalog catalog speaker)
      else baseStyle
    { character := char, speaker := speaker, style := styleName,
      styleId := get_style_id catalog speaker styleName,
      dialogue := dialogue, filename := filename }
      :: tasksForChar catalog autoEmotion char speaker baseStyle rest

/-- The task-collection phase of `generate_voices`: outer loop over
`self.voice_combos.items()` in insertion order (each entry is
(character, speaker name, manually selected style)), inner loop over that
character's rows in sheet order. -/
def buildTasks (catalog : List (Str × List (Str × Int))) (autoEmotion : Bool)
    (cachedData : List (List (Option Str)))
    (charIdx dialogueIdx filenameIdx startRow : Nat) :
    List (Str × Str × Str) → List SynthesisTask
  | [] => []
  | (char, speaker, baseStyle) :: rest =>
    tasksForChar catalog autoEmotion char speaker baseStyle
      (ExcelReader.get_rows_for_character cachedData charIdx dialogueIdx filenameIdx
        char startRow)
    ++ buildTasks catalog autoEmotion cachedData charIdx dialogueIdx filenameIdx
        startRow rest

/-- Raw audio bytes. -/
abbrev Bytes := List Nat

/-- Embedding of `os.path.join(output_dir, filename)` for our purposes. -/
def pathJoin (dir filename : Str) : Str := dir ++ [Char.ofNat 47] ++ filename

/-- The outcome tally of one `generate_all` run.  `errors` is the ordered
sequence of per-task error records the except-branch emits (filename and
message), `written` the files written in order, `progressLog` the sequence
of progress-bar values set (one per task, `i + 1`). -/
structure BatchResult where
  successCount : Nat
  errorCount : Nat
  errors : List (Str × Str)
  written : List Str
  progressLog : List Nat
deriving DecidableEq

/-- The body of `generate_all`'s try block for task index `i`: synthesize
speech for the dialogue and style id, coerce the filename, join the output
path, convert-and-write.  `synth` and `convert` are oracles for the
VoiceVox call and the pydub conversion/write, indexed by task position so
any failure pattern can be expressed; a raised exception is an
`Except.error` carrying the message. -/
def taskAttempt (synth : Nat → Str → Int → Except Str Bytes)
    (convert : Nat → Bytes → Str → Except Str Unit)
    (outputPath : Str) (i : Nat) (t : SynthesisTask) : Except Str Str := do
  let wavData ← synth i t.dialogue t.styleId
  let filename := coerceFilename t.filename
  let outputFile := pathJoin outputPath filename
  convert i wavData outputFile
  pure outputFile

/-- Did the attempt raise? -/
def attemptFails : Except Str Str → Bool
  | Except.ok _ => false
  | Except.error _ => true

/-- The task loop of `generate_all`, starting at task index `i`: each task
is attempted exactly once; an exception is caught, the error counter is
bumped and an error record with the task's filename is emitted; the
progress value `i + 1` is set after every task, caught or not. -/
def generateAllFrom (synth : Nat → Str → Int → Except Str Bytes)
    (convert : Nat → Bytes → Str → Except Str Unit)
    (outputPath : Str) : Nat → List SynthesisTask → BatchResult
  | _, [] => { successCount := 0, errorCount := 0, errors := [], written := [],
               progressLog := [] }
  | i, t :: ts =>
    let rest := generateAllFrom synth convert outputPath (i + 1) ts
    match taskAttempt synth convert outputPath i t with
    | Except.ok out =>
      { successCount := rest.successCount + 1, errorCount := rest.errorCount,
        errors := rest.errors, written := out :: rest.written,
        progressLog := (i + 1) :: rest.progressLog }
    | Except.error e =>
      { successCount := rest.successCount, errorCount := rest.errorCount + 1,
        errors := (t.filename, e) :: rest.errors, written := rest.written,
        progressLog := (i + 1) :: rest.progressLog }

/-- Embedding of `generate_all` from `generate_voices`: the sequential batch loop over
the collected tasks. -/
def generate_all (synth : Nat → Str → Int → Except Str Bytes)
    (convert : Nat → Bytes → Str → Except Str Unit)
    (outputPath : Str) (tasks : List SynthesisTask) : BatchResult :=
  generateAllFrom synth convert outputPath 0 tasks

/-- The error record emitted by the except-branch for the enumerated task
`p`, if it fails. -/
def errRecord (synth : Nat → Str → Int → Except Str Bytes)
    (convert : Nat → Bytes → Str → Except Str Unit) (outputPath : Str)
    (p : Nat × SynthesisTask) : Option (Str × Str) :=
  match taskAttempt synth convert outputPath p.1 p.2 with
  | Except.ok _ => none
  | Except.error e => some (p.2.filename, e)

/-- A concrete synthesis oracle that fails on the task at index 1 and
succeeds elsewhere (failure injection for concrete runs). -/
def failSynthAt1 : Nat → Str → Int → Except Str Bytes :=
  fun i _ _ => if i = 1 then Except.error (str "boom") else Except.ok []

/-- A conversion/write oracle that always succeeds. -/
def okConvert : Nat → Bytes → Str → Except Str Unit :=
  fun _ _ _ => Except.ok ()

/-- A concrete task with the given output filename. -/
def namedTask (name : String) : SynthesisTask :=
  { character := str "A", speaker := str "spk", style := str "ノーマル",
    styleId := 0, dialogue := str "こんにちは", filename := str name }

/-- Three concrete tasks. -/
def tasks3 : List SynthesisTask := [namedTask "f1", namedTask "f2", namedTask "f3"]

/-- Ten concrete tasks. -/
def tasks10 : List SynthesisTask :=
  [namedTask "f1", namedTask "f2", namedTask "f3", namedTask "f4", namedTask "f5",
   namedTask "f6", namedTask "f7", namedTask "f8", namedTask "f9", namedTask "f10"]

namespace AudioConverter

/-- Model of pydub's `AudioSegment`, holding the three format parameters
and the frame list (one integer sample per channel per frame). -/
structure AudioSegment where
  frame_rate : Nat
  sample_width : Nat
  channels : Nat
  frames : List (List Int)
deriving DecidableEq

/-- pydub `set_frame_rate`: resample to the new rate.  The resampled
sample values are abstracted (the frame list is carried through); the
claims under verification concern the format parameters and channel
layout, not resampling accuracy. -/
def set_frame_rate (rate : Nat) (a : AudioSegment) : AudioSegment :=
  { a with frame_rate := rate }

/-- pydub `set_sample_width`: rescale samples to the new width (value
rescaling abstracted as for `set_frame_rate`). -/
def set_sample_width (width : Nat) (a : AudioSegment) : AudioSegment :=
  { a with sample_width := width }

/-- pydub `set_channels`, on the surface the source exercises: a no-op on
a matching channel count, mono-to-stereo by duplicating each frame's
single sample; other conversions are outside the modelled surface. -/
def set_channels (n : Nat) (a : AudioSegment) : Except Str AudioSegment :=
  if a.channels = n then Except.ok a
  else if a.channels == 1 && n == 2 then
    Except.ok { a with channels := 2, frames := a.frames.map (fun fr => fr ++ fr) }
  else Except.error (str "unsupported channel conversion")

/-- Embedding of `AudioConverter.convert_to_16bit_44100hz`: run the decoded input
through `set_frame_rate(44100).set_sample_width(2).set_channels(2)` and
export with format "wav" (the temp-file round trip and the `wave`-module
header read are I/O scaffolding with no effect on the exported audio).
Returns the exported segment together with the export format tag. -/
def convert_to_16bit_44100hz (input : AudioSegment) :
    Except Str (AudioSegment × Str) := do
  let a := set_sample_width 2 (set_frame_rate 44100 input)
  let b ← set_channels 2 a
  pure (b, str "wav")

end AudioConverter

/-! ### String lemmas -/

/-- A head-anchored match survives mapping a character function over both
needle and haystack. -/
theorem subAt_map (f : Char → Char) :
    ∀ needle hay : Str, subAt needle hay = true →
      subAt (needle.map f) (hay.map f) = true := by
  intro needle
  induction needle with
  | nil => intro hay _; simp [subAt]
  | cons a as ih =>
    intro hay h
    cases hay with
    | nil => simp [subAt] at h
    | cons b bs =>
      simp only [subAt, Bool.and_eq_true, beq_iff_eq] at h
      simp only [List.map_cons, subAt, Bool.and_eq_true, beq_iff_eq]
      exact ⟨by rw [h.1], ih bs h.2⟩

/-- Substring containment survives mapping a character function over both
strings; in particular a case-sensitive occurrence is also a
case-insensitive one. -/
theorem containsSub_map (f : Char → Char) :
    ∀ hay needle : Str, containsSub hay needle = true →
      containsSub (hay.map f) (needle.map f) = true := by
  intro hay
  induction hay with
  | nil =>
    intro needle h
    simp only [containsSub] at h
    rw [List.isEmpty_iff] at h
    subst h
    simp [containsSub]
  | cons c rest ih =>
    intro needle h
    simp only [containsSub, Bool.or_eq_true] at h
    simp only [List.map_cons, containsSub, Bool.or_eq_true]
    cases h with
    | inl h1 => exact Or.inl (by simpa using subAt_map f needle (c :: rest) h1)
    | inr h2 => exact Or.inr (ih needle h2)

/-- The source's style-match test (`emotion in style_name or
emotion.lower() in style_name.lower()`) coincides with plain
case-insensitive containment: the first disjunct implies the second. -/
theorem pickPred_eq (emotion n : Str) :
    (containsSub n emotion || containsSub (lowerStr n) (lowerStr emotion))
      = containsSub (lowerStr n) (lowerStr emotion) := by
  cases h : containsSub n emotion with
  | false => simp
  | true =>
    have h2 := containsSub_map Char.toLower n emotion h
    simp only [lowerStr]
    simp [h2]

/-! ### Emotion classifier lemmas -/

/-- The source's ranked-scan equals the spec's case-insensitive scan. -/
theorem firstPick_eq_specPick :
    ∀ (ranked : List (Str × Nat)) (names : List Str),
      EmotionAnalyzer.firstPick ranked names = specPick ranked names := by
  intro ranked
  induction ranked with
  | nil => intro names; rfl
  | cons e rest ih =>
    intro names
    obtain ⟨emotion, sc⟩ := e
    have hp : (fun n => containsSub n emotion || containsSub (lowerStr n) (lowerStr emotion))
        = (fun n => containsSub (lowerStr n) (lowerStr emotion)) := by
      funext n; exact pickPred_eq emotion n
    simp only [EmotionAnalyzer.firstPick, specPick, hp, ih]

/-- No keyword list of the table contains duplicates, so per-entry keyword
counting counts distinct keywords. -/
theorem table_dedup : ∀ ek ∈ EMOTION_KEYWORDS, dedupKW ek.2 = ek.2 := by decide

/-- The source's scores equal the spec's distinct-keyword scores. -/
theorem emotionScores_eq_specScores (text : Str) :
    EmotionAnalyzer.emotionScores text = specScores text := by
  unfold EmotionAnalyzer.emotionScores specScores
  exact List.filterMap_congr (fun ek hk => by rw [table_dedup ek hk])

/-- The source's classifier coincides with the spec-worded classifier. -/
theorem analyze_eq_classifySpec (text : Str) (styles : List (Str × Int)) :
    EmotionAnalyzer.analyze text styles = classifySpec text (styles.map Prod.fst) := by
  unfold EmotionAnalyzer.analyze classifySpec
  rw [emotionScores_eq_specScores, firstPick_eq_specPick]

/-- A style returned by the ranked scan is drawn from the candidate
names. -/
theorem firstPick_mem :
    ∀ (ranked : List (Str × Nat)) (names : List Str) (s : Str),
      EmotionAnalyzer.firstPick ranked names = some s → s ∈ names := by
  intro ranked
  induction ranked with
  | nil => intro names s h; simp [EmotionAnalyzer.firstPick] at h
  | cons e rest ih =>
    intro names s h
    obtain ⟨emotion, sc⟩ := e
    simp only [EmotionAnalyzer.firstPick] at h
    cases hf : names.find? (fun n =>
        containsSub n emotion || containsSub (lowerStr n) (lowerStr emotion)) with
    | some x =>
      rw [hf] at h
      cases h
      exact List.mem_of_find?_eq_some hf
    | none =>
      rw [hf] at h
      exact ih names s h

/-- The default branch returns a candidate name whenever one exists. -/
theorem normalFallback_mem (names : List Str) (h : names ≠ []) :
    EmotionAnalyzer.normalFallback names ∈ names := by
  unfold EmotionAnalyzer.normalFallback
  cases hf : names.find? (fun n =>
      containsSub n (str "ノーマル") || containsSub (lowerStr n) (str "normal")) with
  | some x =>
    exact List.mem_of_find?_eq_some hf
  | none =>
    cases names with
    | nil => exact absurd rfl h
    | cons n ns => simp

/-! ### Task builder lemmas -/

/-- The inner loop emits one task per retained row, with the row's
filename, in row order. -/
theorem tasksForChar_filenames (catalog : List (Str × List (Str × Int)))
    (autoEmotion : Bool) (char speaker baseStyle : Str) :
    ∀ rows : List (Str × Str),
      (tasksForChar catalog autoEmotion char speaker baseStyle rows).map
          (fun t => t.filename)
        = rows.map Prod.snd := by
  intro rows
  induction rows with
  | nil => rfl
  | cons r rest ih =>
    obtain ⟨d, f⟩ := r
    simp only [tasksForChar, List.map_cons, ih]

/-- The task list is the concatenation, in assignment order, of each
character's matching rows in sheet order. -/
theorem buildTasks_filenames (catalog : List (Str × List (Str × Int)))
    (autoEmotion : Bool) (cachedData : List (List (Option Str)))
    (charIdx dialogueIdx filenameIdx startRow : Nat) :
    ∀ combos : List (Str × Str × Str),
      (buildTasks catalog autoEmotion cachedData charIdx dialogueIdx filenameIdx
          startRow combos).map (fun t => t.filename)
        = combos.flatMap (fun c =>
            (ExcelReader.get_rows_for_character cachedData charIdx dialogueIdx
              filenameIdx c.1 startRow).map Prod.snd) := by
  intro combos
  induction combos with
  | nil => rfl
  | cons c rest ih =>
    obtain ⟨char, speaker, baseStyle⟩ := c
    simp only [buildTasks, List.map_append, ih, tasksForChar_filenames,
      List.flatMap_cons]

/-! ### Batch runner lemmas -/

/-- An attempt fails exactly when it is an `Except.error`. -/
theorem attemptFails_true_iff (x : Except Str Str) :
    attemptFails x = true ↔ ∃ e, x = Except.error e := by
  cases x <;> simp [attemptFails]

/-- An attempt succeeds exactly when it is an `Except.ok`. -/
theorem attemptFails_false_iff (x : Except Str Str) :
    attemptFails x = false ↔ ∃ out, x = Except.ok out := by
  cases x <;> simp [attemptFails]

/-- Every task is attempted exactly once: successes and errors always sum
to the number of tasks handed to the loop. -/
theorem generateAllFrom_sum (synth : Nat → Str → Int → Except Str Bytes)
    (convert : Nat → Bytes → Str → Except Str Unit) (outputPath : Str) :
    ∀ (i : Nat) (ts : List SynthesisTask),
      (generateAllFrom synth convert outputPath i ts).successCount
        + (generateAllFrom synth convert outputPath i ts).errorCount
        = ts.length := by
  intro i ts
  induction ts generalizing i with
  | nil => rfl
  | cons t rest ih =>
    simp only [generateAllFrom, List.length_cons]
    cases taskAttempt synth convert outputPath i t with
    | ok out =>
      simp only []
      have := ih (i + 1)
      omega
    | error e =>
      simp only []
      have := ih (i + 1)
      omega

/-- The error log is exactly the failing tasks' (filename, message)
records, in task order. -/
theorem generateAllFrom_errors (synth : Nat → Str → Int → Except Str Bytes)
    (convert : Nat → Bytes → Str → Except Str Unit) (outputPath : Str) :
    ∀ (i : Nat) (ts : List SynthesisTask),
      (generateAllFrom synth convert outputPath i ts).errors
        = (ts.enumFrom i).filterMap (errRecord synth convert outputPath) := by
  intro i ts
  induction ts generalizing i with
  | nil => rfl
  | cons t rest ih =>
    simp only [generateAllFrom, List.enumFrom, List.filterMap_cons, errRecord]
    cases taskAttempt synth convert outputPath i t with
    | ok out => simp only [ih (i + 1)]
    | error e => simp only [ih (i + 1)]

/-- The error counter counts exactly the error records. -/
theorem generateAllFrom_errlen (synth : Nat → Str → Int → Except Str Bytes)
    (convert : Nat → Bytes → Str → Except Str Unit) (outputPath : Str) :
    ∀ (i : Nat) (ts : List SynthesisTask),
      (generateAllFrom synth convert outputPath i ts).errors.length
        = (generateAllFrom synth convert outputPath i ts).errorCount := by
  intro i ts
  induction ts generalizing i with
  | nil => rfl
  | cons t rest ih =>
    simp only [generateAllFrom]
    cases taskAttempt synth convert outputPath i t with
    | ok out => simpa using ih (i + 1)
    | error e => simpa using ih (i + 1)

/-- The progress bar is set once per task, in order: the loop starting at
index `i` over `n` tasks reports exactly `i+1, i+2, …, i+n`. -/
theorem generateAllFrom_progress (synth : Nat → Str → Int → Except Str Bytes)
    (convert : Nat → Bytes → Str → Except Str Unit) (outputPath : Str) :
    ∀ (i : Nat) (ts : List SynthesisTask),
      (generateAllFrom synth convert outputPath i ts).progressLog
        = List.range' (i + 1) ts.length := by
  intro i ts
  induction ts generalizing i with
  | nil => rfl
  | cons t rest ih =>
    simp only [generateAllFrom, List.length_cons, List.range']
    cases taskAttempt synth convert outputPath i t with
    | ok out => simpa using ih (i + 1)
    | error e => simpa using ih (i + 1)

/-- If every enumerated task from `j` on succeeds, no error record is
emitted. -/
theorem filterMap_errRecord_nil (synth : Nat → Str → Int → Except Str Bytes)
    (convert : Nat → Bytes → Str → Except Str Unit) (outputPath : Str) :
    ∀ (ts : List SynthesisTask) (j : Nat),
      (∀ p ∈ ts.enumFrom j,
        attemptFails (taskAttempt synth convert outputPath p.1 p.2) = false) →
      (ts.enumFrom j).filterMap (errRecord synth convert outputPath) = [] := by
  intro ts
  induction ts with
  | nil => intro j _; rfl
  | cons t rest ih =>
    intro j hok
    have h0 : attemptFails (taskAttempt synth convert outputPath j t) = false :=
      hok (j, t) (by simp [List.enumFrom])
    obtain ⟨out, hout⟩ := (attemptFails_false_iff _).mp h0
    simp only [List.enumFrom, List.filterMap_cons, errRecord, hout]
    exact ih (j + 1) (fun p hp => hok p (by simp [List.enumFrom, hp]))

/-- If exactly the task at absolute index `k` fails, the error log is the
singleton naming that task's filename. -/
theorem filterMap_errRecord_single (synth : Nat → Str → Int → Except Str Bytes)
    (convert : Nat → Bytes → Str → Except Str Unit) (outputPath : Str) :
    ∀ (ts : List SynthesisTask) (j k : Nat),
      j ≤ k → k < j + ts.length →
      (∀ p ∈ ts.enumFrom j, p.1 ≠ k →
        attemptFails (taskAttempt synth convert outputPath p.1 p.2) = false) →
      (∀ p ∈ ts.enumFrom j, p.1 = k →
        attemptFails (taskAttempt synth convert outputPath p.1 p.2) = true) →
      ∃ (m : Str) (t : SynthesisTask), (k, t) ∈ ts.enumFrom j
        ∧ (ts.enumFrom j).filterMap (errRecord synth convert outputPath)
            = [(t.filename, m)] := by
  intro ts
  induction ts with
  | nil => intro j k hjk hk _ _; simp at hk; omega
  | cons t rest ih =>
    intro j k hjk hk hok hfail
    by_cases hj : j = k
    · subst hj
      have hf : attemptFails (taskAttempt synth convert outputPath j t) = true :=
        hfail (j, t) (by simp [List.enumFrom]) rfl
      obtain ⟨e, he⟩ := (attemptFails_true_iff _).mp hf
      refine ⟨e, t, by simp [List.enumFrom], ?_⟩
      simp only [List.enumFrom, List.filterMap_cons, errRecord, he]
      have htail : (rest.enumFrom (j + 1)).filterMap
          (errRecord synth convert outputPath) = [] := by
        apply filterMap_errRecord_nil
        intro p hp
        have hge : j + 1 ≤ p.1 := List.le_fst_of_mem_enumFrom hp
        exact hok p (by simp [List.enumFrom, hp]) (by omega)
      rw [htail]
    · have h0 : attemptFails (taskAttempt synth convert outputPath j t) = false :=
        hok (j, t) (by simp [List.enumFrom]) hj
      obtain ⟨out, hout⟩ := (attemptFails_false_iff _).mp h0
      simp only [List.enumFrom, List.filterMap_cons, errRecord, hout]
      obtain ⟨m, t', hmem, heq⟩ := ih (j + 1) k (by omega)
        (by simp at hk ⊢; omega)
        (fun p hp hne => hok p (by simp [List.enumFrom, hp]) hne)
        (fun p hp hpk => hfail p (by simp [List.enumFrom, hp]) hpk)
      exact ⟨m, t', by simp [List.enumFrom, hmem], heq⟩

/-! ### Excel reader lemmas -/

/-- A row one of whose dialogue/filename cells is falsy (missing, out of
range, or the empty string) is excluded. -/
theorem processRow_eq_none (charIdx dialogueIdx filenameIdx : Nat) (character : Str)
    (row : List (Option Str))
    (h : truthy (row.getD dialogueIdx none) = false
       ∨ truthy (row.getD filenameIdx none) = false) :
    ExcelReader.processRow charIdx dialogueIdx filenameIdx character row = none := by
  unfold ExcelReader.processRow
  have hand : (truthy (row.getD dialogueIdx none)
      && truthy (row.getD filenameIdx none)) = false := by
    rcases h with h1 | h1
    · rw [h1, Bool.false_and]
    · rw [h1, Bool.and_false]
  split
  · rfl
  · rw [hand]
    split
    · simp
    · rfl

/-! ### Claim theorems -/

/-- C1: the batch runner attempts every submitted task exactly once in
order: a failure in any task's synthesis/normalization/write is caught,
the error counter is bumped and an error record carrying that task's
filename and a message is emitted, and execution continues, so successes
and errors always sum to the number of tasks; when exactly the task at
index k fails, the run yields N-1 successes, 1 error, and an error log
naming the k-th task's filename. -/
theorem spec_C1_batch_failure_isolation
    (synth : Nat → Str → Int → Except Str Bytes)
    (convert : Nat → Bytes → Str → Except Str Unit)
    (outputPath : Str) (tasks : List SynthesisTask) :
    ((generate_all synth convert outputPath tasks).successCount
        + (generate_all synth convert outputPath tasks).errorCount
        = tasks.length)
    ∧ ∀ k : Nat, k < tasks.length →
      (∀ p ∈ tasks.enumFrom 0, p.1 ≠ k →
        attemptFails (taskAttempt synth convert outputPath p.1 p.2) = false) →
      (∀ p ∈ tasks.enumFrom 0, p.1 = k →
        attemptFails (taskAttempt synth convert outputPath p.1 p.2) = true) →
      (generate_all synth convert outputPath tasks).errorCount = 1
      ∧ (generate_all synth convert outputPath tasks).successCount = tasks.length - 1
      ∧ ∃ (m : Str) (t : SynthesisTask), (k, t) ∈ tasks.enumFrom 0
          ∧ (generate_all synth convert outputPath tasks).errors
              = [(t.filename, m)] := by
  have hsum : (generate_all synth convert outputPath tasks).successCount
      + (generate_all synth convert outputPath tasks).errorCount = tasks.length :=
    generateAllFrom_sum synth convert outputPath 0 tasks
  refine ⟨hsum, ?_⟩
  intro k hk hok hfail
  obtain ⟨m, t, hmem, heq⟩ :=
    filterMap_errRecord_single synth convert outputPath tasks 0 k
      (Nat.zero_le k) (by omega) hok hfail
  have herr : (generate_all synth convert outputPath tasks).errors
      = [(t.filename, m)] := by
    rw [generate_all, generateAllFrom_errors]
    exact heq
  have hlen : (generate_all synth convert outputPath tasks).errors.length
      = (generate_all synth convert outputPath tasks).errorCount :=
    generateAllFrom_errlen synth convert outputPath 0 tasks
  rw [herr] at hlen
  simp only [List.length_cons, List.length_nil] at hlen
  refine ⟨?_, ?_, m, t, hmem, herr⟩
  · omega
  · omega

/-- Witness for C1: three concrete tasks with the middle one failing give
2 successes, 1 error, and an error log naming "f2". -/
theorem spec_C1_batch_failure_isolation_witness :
    (generate_all failSynthAt1 okConvert (str "out") tasks3).successCount
        + (generate_all failSynthAt1 okConvert (str "out") tasks3).errorCount = 3
    ∧ (generate_all failSynthAt1 okConvert (str "out") tasks3).errorCount = 1
    ∧ (generate_all failSynthAt1 okConvert (str "out") tasks3).successCount = 2
    ∧ ∃ (m : Str) (t : SynthesisTask), (1, t) ∈ tasks3.enumFrom 0
        ∧ (generate_all failSynthAt1 okConvert (str "out") tasks3).errors
            = [(t.filename, m)] := by
  have h := spec_C1_batch_failure_isolation failSynthAt1 okConvert (str "out") tasks3
  have h3 := h.2 1 (by decide) (by decide) (by decide)
  exact ⟨h.1, h3.1, h3.2.1, h3.2.2⟩

/-- C2: for every text, the classifier returns one of the available style
names whenever the style list is non-empty — it never invents a name. -/
theorem spec_C2_classify_membership (text : Str) (styles : List (Str × Int))
    (h : styles ≠ []) :
    EmotionAnalyzer.analyze text styles ∈ styles.map Prod.fst := by
  unfold EmotionAnalyzer.analyze
  cases hf : EmotionAnalyzer.firstPick
      (EmotionAnalyzer.sortDesc (EmotionAnalyzer.emotionScores text))
      (styles.map Prod.fst) with
  | some s => exact firstPick_mem _ _ s hf
  | none =>
    apply normalFallback_mem
    intro hnil
    exact h (List.map_eq_nil_iff.mp hnil)

/-- Witness for C2 at a concrete text and style list. -/
theorem spec_C2_classify_membership_witness :
    ([(str "あまあま", (0 : Int)), (str "ノーマル", 1)] : List (Str × Int)) ≠ []
    ∧ EmotionAnalyzer.analyze (str "大好き")
        [(str "あまあま", (0 : Int)), (str "ノーマル", 1)]
      ∈ ([(str "あまあま", (0 : Int)), (str "ノーマル", 1)] : List (Str × Int)).map
          Prod.fst :=
  ⟨by decide, spec_C2_classify_membership _ _ (by decide)⟩

/-- C3: the classifier implements exactly the claimed algorithm — distinct
keyword counting, score-descending ranking with declaration-order ties,
case-insensitive label/style matching, then the normal-style fallback —
and on the three cited inputs returns あまあま, 怒り and ノーマル. -/
theorem spec_C3_classify_algorithm (text : Str) (styles : List (Str × Int)) :
    EmotionAnalyzer.analyze text styles = classifySpec text (styles.map Prod.fst)
    ∧ EmotionAnalyzer.analyze (str "大好き")
        [(str "あまあま", (0 : Int)), (str "ノーマル", 1)] = str "あまあま"
    ∧ EmotionAnalyzer.analyze (str "ふざけるな")
        [(str "怒り", (0 : Int)), (str "ノーマル", 1)] = str "怒り"
    ∧ EmotionAnalyzer.analyze (str "今日は天気です")
        [(str "あまあま", (0 : Int)), (str "ノーマル", 1)] = str "ノーマル" :=
  ⟨analyze_eq_classifySpec text styles, by decide, by decide, by decide⟩

/-- C4: the produced task list is grouped by the voice-assignment map's
iteration order, each group keeping the sheet's row order; on the cited
three-row example the filenames come out f1, f3, f2. -/
theorem spec_C4_task_order (catalog : List (Str × List (Str × Int)))
    (autoEmotion : Bool) (cachedData : List (List (Option Str)))
    (charIdx dialogueIdx filenameIdx startRow : Nat)
    (combos : List (Str × Str × Str)) :
    ((buildTasks catalog autoEmotion cachedData charIdx dialogueIdx filenameIdx
        startRow combos).map (fun t => t.filename)
      = combos.flatMap (fun c =>
          (ExcelReader.get_rows_for_character cachedData charIdx dialogueIdx
            filenameIdx c.1 startRow).map Prod.snd))
    ∧ (buildTasks [] false
        [[some (str "A"), some (str "hi"), some (str "f1")],
         [some (str "B"), some (str "yo"), some (str "f2")],
         [some (str "A"), some (str "bye"), some (str "f3")]]
        0 1 2 1
        [(str "A", str "v1", str "ノーマル"), (str "B", str "v2", str "ノーマル")]).map
          (fun t => t.filename)
        = [str "f1", str "f3", str "f2"] :=
  ⟨buildTasks_filenames catalog autoEmotion cachedData charIdx dialogueIdx
      filenameIdx startRow combos, by decide⟩

/-- C5 counterexample: a matching row whose filename cell is a single
space — empty after trimming — still produces a task, and that task's
outputFilename is the empty string. -/
theorem spec_C5_counterexample :
    (buildTasks [] false [[some (str "A"), some (str "hi"), some (str " ")]]
        0 1 2 1 [(str "A", str "spk", str "ノーマル")]).map (fun t => t.filename)
      = [[]] := by decide

/-- C5 (amended): a row whose dialogue or filename cell is missing or is
the empty string before trimming produces no task, even when its
character matches; whitespace-only cells pass the truthiness check, so a
produced task's trimmed filename may be empty. -/
theorem spec_C5_empty_cell_exclusion (charIdx dialogueIdx filenameIdx : Nat)
    (character : Str) (row : List (Option Str))
    (h : row.getD dialogueIdx none = none ∨ row.getD dialogueIdx none = some []
      ∨ row.getD filenameIdx none = none ∨ row.getD filenameIdx none = some []) :
    ExcelReader.processRow charIdx dialogueIdx filenameIdx character row = none := by
  apply processRow_eq_none
  rcases h with h1 | h1 | h1 | h1
  · exact Or.inl (by rw [h1]; rfl)
  · exact Or.inl (by rw [h1]; rfl)
  · exact Or.inr (by rw [h1]; rfl)
  · exact Or.inr (by rw [h1]; rfl)

/-- Witness for C5's amended statement: a row with a missing dialogue cell
produces no task. -/
theorem spec_C5_empty_cell_exclusion_witness :
    ([some (str "A"), none, some (str "f")] : List (Option Str)).getD 1 none = none
    ∧ ExcelReader.processRow 0 1 2 (str "A")
        [some (str "A"), none, some (str "f")] = none :=
  ⟨by decide, spec_C5_empty_cell_exclusion 0 1 2 (str "A") _ (Or.inl (by decide))⟩

/-- C6: ".wav" is appended exactly when the filename does not already end
in ".wav" under the case-insensitive check; "line01" becomes "line01.wav",
"line02.WAV" is written unchanged. -/
theorem spec_C6_filename_coercion (filename : Str) :
    (coerceFilename filename = filename
      ↔ endsStr (lowerStr filename) (str ".wav") = true)
    ∧ (coerceFilename filename = filename ++ str ".wav"
      ↔ endsStr (lowerStr filename) (str ".wav") = false)
    ∧ coerceFilename (str "line01") = str "line01.wav"
    ∧ coerceFilename (str "line02.WAV") = str "line02.WAV" := by
  refine ⟨?_, ?_, by decide, by decide⟩
  · unfold coerceFilename
    cases h : endsStr (lowerStr filename) (str ".wav") with
    | true => simp
    | false =>
      simp only [Bool.false_eq_true, if_false]
      constructor
      · intro he
        exfalso
        have := congrArg List.length he
        simp [str] at this
      · intro h2
        exact absurd h2 (by simp)
  · unfold coerceFilename
    cases h : endsStr (lowerStr filename) (str ".wav") with
    | true =>
      simp only [if_true]
      constructor
      · intro he
        have := congrArg List.length he
        simp [str] at this
      · intro h2
        exact absurd h2 (by simp)
    | false => simp

/-- C7 counterexample: resolving a speaker absent from the catalog, or a
style absent from a present speaker, does not fail with NotFound — the
resolution returns the default id 0. -/
theorem spec_C7_counterexample :
    get_style_id [] (str "四国めたん") (str "あまあま") = 0
    ∧ get_style_id [(str "四国めたん", [(str "ノーマル", (2 : Int))])]
        (str "四国めたん") (str "あまあま") = 0 := by decide

/-- C7 (amended): style resolution against the last-fetched catalog is
total: when the speaker and one of its styles match it returns the id
paired with the first matching style name; when the speaker or the style
is absent it returns the default id 0 instead of failing. -/
theorem spec_C7_style_resolution (catalog : List (Str × List (Str × Int)))
    (speakerName styleName : Str) :
    (catalog.find? (fun e => e.1 == speakerName) = none →
      get_style_id catalog speakerName styleName = 0)
    ∧ ∀ entry, catalog.find? (fun e => e.1 == speakerName) = some entry →
        (entry.2.find? (fun s => s.1 == styleName) = none →
          get_style_id catalog speakerName styleName = 0)
        ∧ ∀ p, entry.2.find? (fun s => s.1 == styleName) = some p →
            get_style_id catalog speakerName styleName = p.2 := by
  refine ⟨?_, ?_⟩
  · intro h
    unfold get_style_id
    rw [h]
  · intro entry hentry
    constructor
    · intro h
      unfold get_style_id
      rw [hentry]
      show (match entry.2.find? (fun s => s.1 == styleName) with
        | some s => s.2
        | none => (0 : Int)) = (0 : Int)
      rw [h]
    · intro p hp
      unfold get_style_id
      rw [hentry]
      show (match entry.2.find? (fun s => s.1 == styleName) with
        | some s => s.2
        | none => (0 : Int)) = p.2
      rw [hp]

/-- Witness for C7's amended statement: with two styles of the same name,
the first one's id is returned. -/
theorem spec_C7_style_resolution_witness :
    ([(str "spk", [(str "sty", (3 : Int)), (str "sty", 4)])].find?
        (fun e => e.1 == str "spk")
      = some (str "spk", [(str "sty", (3 : Int)), (str "sty", 4)]))
    ∧ get_style_id [(str "spk", [(str "sty", (3 : Int)), (str "sty", 4)])]
        (str "spk") (str "sty") = 3 := by
  refine ⟨by decide, ?_⟩
  exact ((spec_C7_style_resolution
      [(str "spk", [(str "sty", (3 : Int)), (str "sty", 4)])]
      (str "spk") (str "sty")).2
    (str "spk", [(str "sty", (3 : Int)), (str "sty", 4)]) (by decide)).2
    (str "sty", (3 : Int)) (by decide)

/-- C8: for every decodable mono or stereo clip, whatever its sample rate,
the converter outputs a WAV export with 2-byte (16-bit) samples, a
44100 Hz frame rate and 2 channels, up-mixing mono sources by duplicating
each frame's single sample. -/
theorem spec_C8_canonical_format (a : AudioConverter.AudioSegment)
    (h : a.channels = 1 ∨ a.channels = 2) :
    ∃ out : AudioConverter.AudioSegment,
      AudioConverter.convert_to_16bit_44100hz a = Except.ok (out, str "wav")
      ∧ out.frame_rate = 44100 ∧ out.sample_width = 2 ∧ out.channels = 2
      ∧ (a.channels = 1 → out.frames = a.frames.map (fun fr => fr ++ fr))
      ∧ (a.channels = 2 → out.frames = a.frames) := by
  obtain ⟨rate, width, ch, frames⟩ := a
  rcases h with h1 | h2
  · cases h1
    exact ⟨⟨44100, 2, 2, frames.map (fun fr => fr ++ fr)⟩, rfl, rfl, rfl, rfl,
      fun _ => rfl, fun hc => by simp at hc⟩
  · cases h2
    exact ⟨⟨44100, 2, 2, frames⟩, rfl, rfl, rfl, rfl,
      fun hc => by simp at hc, fun _ => rfl⟩

/-- Witness for C8 at a concrete mono 24000 Hz clip. -/
theorem spec_C8_canonical_format_witness :
    ((⟨24000, 2, 1, [[5], [7]]⟩ : AudioConverter.AudioSegment).channels = 1
      ∨ (⟨24000, 2, 1, [[5], [7]]⟩ : AudioConverter.AudioSegment).channels = 2)
    ∧ ∃ out : AudioConverter.AudioSegment,
        AudioConverter.convert_to_16bit_44100hz ⟨24000, 2, 1, [[5], [7]]⟩
          = Except.ok (out, str "wav")
        ∧ out.frame_rate = 44100 ∧ out.sample_width = 2 ∧ out.channels = 2
        ∧ ((⟨24000, 2, 1, [[5], [7]]⟩ : AudioConverter.AudioSegment).channels = 1 →
            out.frames = ([[5], [7]] : List (List Int)).map (fun fr => fr ++ fr))
        ∧ ((⟨24000, 2, 1, [[5], [7]]⟩ : AudioConverter.AudioSegment).channels = 2 →
            out.frames = ([[5], [7]] : List (List Int))) :=
  ⟨Or.inl rfl, spec_C8_canonical_format ⟨24000, 2, 1, [[5], [7]]⟩ (Or.inl rfl)⟩

/-- C9 counterexample: a 10-task batch records an attempt (one progress
update and one success-or-error outcome) for all 10 tasks; no run records
only 3 attempts, because the loop consults no cancellation signal. -/
theorem spec_C9_counterexample :
    (generate_all failSynthAt1 okConvert (str "out") tasks10).progressLog
        = [1, 2, 3, 4, 5, 6, 7, 8, 9, 10]
    ∧ (generate_all failSynthAt1 okConvert (str "out") tasks10).successCount
        + (generate_all failSynthAt1 okConvert (str "out") tasks10).errorCount
        = 10 := by decide

/-- C9 (amended): the batch runner checks no cancellation signal and never
returns early — for every task list and every failure pattern it attempts
all tasks, setting the progress value once per task, in order. -/
theorem spec_C9_no_cancellation (synth : Nat → Str → Int → Except Str Bytes)
    (convert : Nat → Bytes → Str → Except Str Unit)
    (outputPath : Str) (tasks : List SynthesisTask) :
    (generate_all synth convert outputPath tasks).progressLog
      = List.range' 1 tasks.length :=
  generateAllFrom_progress synth convert outputPath 0 tasks

/-- C10: row extraction is total over ragged rows: a row shorter than the
character column is skipped, a dialogue or filename index beyond the row's
length is treated as a missing cell and the row is excluded with no error,
and a sheet whose rows are all shorter than the character column yields
nothing. -/
theorem spec_C10_ragged_rows (charIdx dialogueIdx filenameIdx : Nat)
    (character : Str) (row : List (Option Str))
    (cachedData : List (List (Option Str))) (startRow : Nat) :
    (row.length ≤ charIdx →
      ExcelReader.processRow charIdx dialogueIdx filenameIdx character row = none)
    ∧ (row.length ≤ dialogueIdx →
      ExcelReader.processRow charIdx dialogueIdx filenameIdx character row = none)
    ∧ (row.length ≤ filenameIdx →
      ExcelReader.processRow charIdx dialogueIdx filenameIdx character row = none)
    ∧ ((∀ r ∈ cachedData, r.length ≤ charIdx) →
      ExcelReader.get_rows_for_character cachedData charIdx dialogueIdx
        filenameIdx character startRow = []) := by
  refine ⟨?_, ?_, ?_, ?_⟩
  · intro h
    unfold ExcelReader.processRow
    rw [if_pos h]
  · intro h
    exact processRow_eq_none _ _ _ _ _
      (Or.inl (by rw [List.getD_eq_default _ _ h]; rfl))
  · intro h
    exact processRow_eq_none _ _ _ _ _
      (Or.inr (by rw [List.getD_eq_default _ _ h]; rfl))
  · intro h
    unfold ExcelReader.get_rows_for_character
    apply List.filterMap_eq_nil_iff.mpr
    intro r hr
    have hshort : r.length ≤ charIdx := h r (List.mem_of_mem_drop hr)
    unfold ExcelReader.processRow
    rw [if_pos hshort]

/-- Witness for C10 at a one-cell row and a one-row sheet. -/
theorem spec_C10_ragged_rows_witness :
    ExcelReader.processRow 3 5 6 (str "A") [some (str "A")] = none
    ∧ ExcelReader.processRow 0 5 6 (str "A") [some (str "A")] = none
    ∧ ExcelReader.get_rows_for_character [[some (str "x")]] 3 5 6 (str "A") 1
        = [] := by
  have h := spec_C10_ragged_rows 3 5 6 (str "A") [some (str "A")] [[some (str "x")]] 1
  have h2 := spec_C10_ragged_rows 0 5 6 (str "A") [some (str "A")] [[some (str "x")]] 1
  exact ⟨h.1 (by decide), h2.2.1 (by decide), h.2.2.2 (by decide)⟩

end VoiceGen
